import Mathlib

/-!
Verification of the pipeline orchestration and configuration-resolution layer
of `accelerometer/accProcess.py` (function `main`).

The filesystem is modelled by boolean oracles (`FS`): `isFile` stands for
`os.path.isfile`, `writable` for `os.access(path, os.W_OK)`, `pathExists`
for `os.path.exists`.  Path manipulation mirrors the CPython `posixpath`
implementations of `os.path.split` and `os.path.join`, and `str.split` at
the first dot.  Timestamps (`datetime` values) are modelled as integers,
since the code only ever compares them.  Python `assert` failures are
modelled as structured errors (`ConfigError`), each carrying the values the
corresponding Python message interpolates.  The external stage collaborators
(`processInputFileToEpoch`, `getActivitySummary`, `writeTimeSeries`) are
opaque: the run model records the orchestrator-level events around them and
takes the summary mapping present at finalization as an oracle.
-/

namespace AccProcess

/-- Characters after the last slash of a path: the `tail` of
`posixpath.split`, i.e. `p[p.rfind(sep)+1:]`. -/
def afterLastSlash : List Char → List Char
  | [] => []
  | c :: cs =>
    if '/' ∈ cs then afterLastSlash cs
    else if c = '/' then cs
    else c :: cs

/-- Characters of a path up to and including the last slash: `p[:p.rfind(sep)+1]`
of `posixpath.split`; empty when the path has no slash. -/
def uptoLastSlash : List Char → List Char
  | [] => []
  | c :: cs =>
    if '/' ∈ cs then c :: uptoLastSlash cs
    else if c = '/' then [c]
    else []

/-- Drop trailing slashes, as `head.rstrip(sep)` does in `posixpath.split`. -/
def rstripSlash (l : List Char) : List Char :=
  (l.reverse.dropWhile (fun c => c = '/')).reverse

/-- The directory component of `posixpath.split`: the part up to the last
slash, with trailing slashes stripped unless the head is empty or all
slashes. -/
def dirNameOf (l : List Char) : List Char :=
  let h := uptoLastSlash l
  if h.isEmpty ∨ h.all (fun c => c = '/') then h else rstripSlash h

/-- `os.path.split` on strings (POSIX semantics): directory part and
file-name part. -/
def splitPath (p : String) : String × String :=
  (String.mk (dirNameOf p.data), String.mk (afterLastSlash p.data))

/-- The file-name component of a path (the second part of `os.path.split`). -/
def fileNameOf (p : String) : String :=
  String.mk (afterLastSlash p.data)

/-- `os.path.join` for two components (POSIX semantics): the
`b.startswith(sep)` and `path.endswith(sep)` tests are taken on the
character list, the separator being a single character. -/
def joinPath (a b : String) : String :=
  if b.data.head? = some '/' then b
  else if a = "" ∨ a.data.getLast? = some '/' then a ++ b
  else a ++ "/" ++ b

/-- `s.split('.')[0]`: the part of a string before its first dot (the whole
string when it has no dot). -/
def beforeFirstDot (s : String) : String :=
  String.mk (s.data.takeWhile (fun c => c ≠ '.'))

/-- Whether a string contains a dot; `len(s.split('.')) < 2` in the source is
exactly `hasDot s = false`. -/
def hasDot (s : String) : Bool :=
  s.data.contains '.'

/-- The user-supplied arguments of `main` that the orchestration layer
inspects.  All other flags are passed through to the opaque collaborators
untouched and are omitted.  `argparse` guarantees `sampleRate` is an integer
and the folders default to the empty string. -/
structure Args where
  inputFile : String
  sampleRate : Int
  useFilter : Bool
  processInputFile : Bool
  outputFolder : String
  summaryFolder : String
  epochFolder : String
  timeSeriesFolder : String
  nonWearFolder : String
  stationaryFolder : String
  rawFolder : String
  npyFolder : String
  startTime : Option Int
  endTime : Option Int
  deleteIntermediateFiles : Bool
  deriving Repr, DecidableEq

/-- Filesystem oracle: `isFile` is `os.path.isfile`, `writable` is
`os.access(·, os.W_OK)`. -/
structure FS where
  isFile : String → Bool
  writable : String → Bool

/-- The fatal configuration/validation failures raised (as `assert`) before
any stage runs, each carrying the data interpolated into the corresponding
Python message. -/
inductive ConfigError where
  | sampleRateTooLow : ConfigError
  | inputFileMissing : String → ConfigError
  | folderNotWritable : String → ConfigError
  | invalidTimeOrder : Int → Int → ConfigError
  deriving Repr, DecidableEq

/-- The input path after the no-extension fixup of lines 253-259: when
processing is skipped and the path has no dot anywhere, `.cwa` is appended. -/
def effectiveInput (args : Args) : String :=
  if args.processInputFile then args.inputFile
  else if hasDot args.inputFile then args.inputFile
  else args.inputFile ++ ".cwa"

/-- `inputFileName.split('.')[0]` of line 263: the stem used for every
derived output file. -/
def resolvedStem (args : Args) : String :=
  beforeFirstDot (splitPath (effectiveInput args)).2

/-- The general output folder after defaulting (line 266-267): the input
file folder when unspecified. -/
def resolvedOutputFolder (args : Args) : String :=
  if args.outputFolder = "" then (splitPath (effectiveInput args)).1
  else args.outputFolder

/-- Per-artifact folder defaulting of lines 268-281: an unspecified folder
inherits the general output folder. -/
def resolvedFolder (userVal : String) (args : Args) : String :=
  if userVal = "" then resolvedOutputFolder args else userVal

def resolvedSummaryFolder (args : Args) : String := resolvedFolder args.summaryFolder args
def resolvedNonWearFolder (args : Args) : String := resolvedFolder args.nonWearFolder args
def resolvedEpochFolder (args : Args) : String := resolvedFolder args.epochFolder args
def resolvedStationaryFolder (args : Args) : String := resolvedFolder args.stationaryFolder args
def resolvedTimeSeriesFolder (args : Args) : String := resolvedFolder args.timeSeriesFolder args
def resolvedRawFolder (args : Args) : String := resolvedFolder args.rawFolder args
def resolvedNpyFolder (args : Args) : String := resolvedFolder args.npyFolder args

/-- The derived output file paths of lines 283-289. -/
def resolvedSummaryFile (args : Args) : String :=
  joinPath (resolvedSummaryFolder args) (resolvedStem args ++ "-summary.json")
def resolvedNonWearFile (args : Args) : String :=
  joinPath (resolvedNonWearFolder args) (resolvedStem args ++ "-nonWearBouts.csv.gz")
def resolvedEpochFile (args : Args) : String :=
  joinPath (resolvedEpochFolder args) (resolvedStem args ++ "-epoch.csv.gz")
def resolvedStationaryFile (args : Args) : String :=
  joinPath (resolvedStationaryFolder args) (resolvedStem args ++ "-stationaryPoints.csv.gz")
def resolvedTsFile (args : Args) : String :=
  joinPath (resolvedTimeSeriesFolder args) (resolvedStem args ++ "-timeSeries.csv.gz")
def resolvedRawFile (args : Args) : String :=
  joinPath (resolvedRawFolder args) (resolvedStem args ++ ".csv.gz")
def resolvedNpyFile (args : Args) : String :=
  joinPath (resolvedNpyFolder args) (resolvedStem args ++ ".npy")

/-- The folders checked by the writability loop of lines 292-296, in the
exact order the source lists them. -/
def checkedFolderList (args : Args) : List String :=
  [resolvedSummaryFolder args, resolvedNonWearFolder args,
   resolvedStationaryFolder args, resolvedTimeSeriesFolder args,
   resolvedRawFolder args, resolvedNpyFolder args, resolvedOutputFolder args]

/-- The first folder in the list that fails the writability check; the loop
of lines 292-300 raises on exactly this folder. -/
def firstUnwritable (w : String → Bool) : List String → Option String
  | [] => none
  | p :: ps => if w p then firstUnwritable w ps else some p

/-- The time-order check of lines 320-325: a violation is reported with both
values; absent timestamps pass. -/
def timeOrderViolation (st en : Option Int) : Option (Int × Int) :=
  match st, en with
  | some s, some e => if e < s then some (s, e) else none
  | _, _ => none

/-- The fully resolved execution configuration produced by lines 242-325
when every gate passes. -/
structure Resolved where
  inputFile : String
  stem : String
  sampleRate : Int
  useFilter : Bool
  processInputFile : Bool
  outputFolder : String
  summaryFolder : String
  nonWearFolder : String
  epochFolder : String
  stationaryFolder : String
  timeSeriesFolder : String
  rawFolder : String
  npyFolder : String
  summaryFile : String
  nonWearFile : String
  epochFile : String
  stationaryFile : String
  tsFile : String
  rawFile : String
  npyFile : String
  startTime : Option Int
  endTime : Option Int
  cleanupRegistered : Bool
  deriving Repr, DecidableEq

/-- The record assembled from the pure derivations of lines 244-289 together
with the cleanup registration flag of line 308. -/
def mkResolved (args : Args) : Resolved :=
  { inputFile := effectiveInput args
    stem := resolvedStem args
    sampleRate := args.sampleRate
    useFilter := if args.sampleRate ≤ 40 then false else args.useFilter
    processInputFile := args.processInputFile
    outputFolder := resolvedOutputFolder args
    summaryFolder := resolvedSummaryFolder args
    nonWearFolder := resolvedNonWearFolder args
    epochFolder := resolvedEpochFolder args
    stationaryFolder := resolvedStationaryFolder args
    timeSeriesFolder := resolvedTimeSeriesFolder args
    rawFolder := resolvedRawFolder args
    npyFolder := resolvedNpyFolder args
    summaryFile := resolvedSummaryFile args
    nonWearFile := resolvedNonWearFile args
    epochFile := resolvedEpochFile args
    stationaryFile := resolvedStationaryFile args
    tsFile := resolvedTsFile args
    rawFile := resolvedRawFile args
    npyFile := resolvedNpyFile args
    startTime := args.startTime
    endTime := args.endTime
    cleanupRegistered := args.deleteIntermediateFiles }

/-- Configuration resolution and validation, lines 242-325 of `main`, with
the gates in the exact source order: sample-rate floor (242), input-file
existence when processing is requested (253-254), the output-folder
writability loop (292-300), the epoch-folder writability check when
processing is requested (301-305), and last the time-order check (320-325).
The pure derivations interleaved between the gates in the source commute
with them, having no side effects. -/
def resolve (fs : FS) (args : Args) : Except ConfigError Resolved :=
  if args.sampleRate < 25 then .error .sampleRateTooLow
  else if args.processInputFile && !(fs.isFile args.inputFile) then
    .error (.inputFileMissing args.inputFile)
  else
    match firstUnwritable fs.writable (checkedFolderList args) with
    | some p => .error (.folderNotWritable p)
    | none =>
      if args.processInputFile && !(fs.writable (resolvedEpochFolder args)) then
        .error (.folderNotWritable (resolvedEpochFolder args))
      else
        match timeOrderViolation args.startTime args.endTime with
        | some se => .error (.invalidTimeOrder se.1 se.2)
        | none => .ok (mkResolved args)

/-- Orchestrator-level events of the run, lines 336-386: the summary-key
assignments the orchestrator itself performs, the stage invocations, and the
finalization steps. -/
inductive Event where
  | setKey : String → String → Event
  | decodeStage : Event
  | epochSummariseStage : Event
  | timeSeriesWriteStage : Event
  | printHeadline : Event
  | writeSummaryFile : String → Event
  deriving Repr, DecidableEq

/-- The fixed ordered headline key list `summaryVals` of lines 377-379. -/
def summaryVals : List String :=
  ["file-name", "file-startTime", "file-endTime", "acc-overall-avg",
   "wearTime-overall(days)", "nonWearTime-overall(days)",
   "quality-goodWearTime"]

/-- The `OrderedDict` comprehension of line 380: looks keys up left to
right and raises a `KeyError` (modelled as `.error` carrying the key) at
the first absent one. -/
def buildHeadline (s : String → Option String) : List String → Except String (List (String × String))
  | [] => .ok []
  | k :: ks =>
    match s k with
    | none => .error k
    | some v => (buildHeadline s ks).map (fun rest => (k, v) :: rest)

/-- The stage sequence of lines 336-386 given a resolved configuration.
`fsum` is the summary mapping as it stands at finalization, after the
opaque collaborators have enriched it.  Returns the orchestrator events in
order, and the run outcome (a `KeyError` at the first missing headline key).
The summary file write of lines 384-385 happens only after the headline
lookup of line 380 succeeded. -/
def runEvents (cfg : Resolved) (fsum : String → Option String) :
    List Event × Except String Unit :=
  let pre :=
    if cfg.processInputFile then
      [Event.setKey "file-name" cfg.inputFile, Event.decodeStage]
    else
      [Event.setKey "file-name" cfg.epochFile]
  let mid := pre ++ [Event.epochSummariseStage, Event.timeSeriesWriteStage]
  match buildHeadline fsum summaryVals with
  | .error k => (mid, .error k)
  | .ok _ => (mid ++ [Event.printHeadline, Event.writeSummaryFile cfg.summaryFile], .ok ())

/-- A run failure: a configuration/validation error before the stages, or a
`KeyError` at finalization. -/
inductive RunError where
  | config : ConfigError → RunError
  | keyError : String → RunError
  deriving Repr, DecidableEq

/-- Whole-program model of `main`: resolution and validation first; on any
configuration error no stage runs and no event is emitted. -/
def runProgram (fs : FS) (args : Args) (fsum : String → Option String) :
    List Event × Except RunError Unit :=
  match resolve fs args with
  | .error e => ([], .error (.config e))
  | .ok cfg =>
    let p := runEvents cfg fsum
    (p.1, p.2.mapError RunError.keyError)

/-- Outcome of the registered cleanup action: which files it removed and
whether it printed the could-not-delete warning.  It is a plain result, not
an exception: the handler of lines 311-317 swallows the `OSError`. -/
structure CleanupResult where
  removed : List String
  warned : Bool
  deriving Repr, DecidableEq

/-- One `if os.path.exists(f): os.remove(f)` step of lines 312-315.
`pathExists f` is the `os.path.exists` oracle and `removeOk f` tells whether
`os.remove f` succeeds; on failure the `OSError` aborts the try body,
carrying the files removed so far. -/
def removeIfExists (pathExists removeOk : String → Bool) (f : String)
    (acc : List String) : Except (List String) (List String) :=
  if pathExists f then
    if removeOk f then .ok (acc ++ [f]) else .error acc
  else .ok acc

/-- The try body of lines 311-315: stationary-points file first, then the
epoch file; a failure on the first skips the second. -/
def cleanupTryBody (pathExists removeOk : String → Bool) (sf ef : String) :
    Except (List String) (List String) :=
  match removeIfExists pathExists removeOk sf [] with
  | .error l => .error l
  | .ok l => removeIfExists pathExists removeOk ef l

/-- The registered `deleteIntermediateFiles` action of lines 309-317: the
`except OSError` handler turns any failure into the warning message, so the
action always returns normally. -/
def cleanupAction (pathExists removeOk : String → Bool) (sf ef : String) :
    CleanupResult :=
  match cleanupTryBody pathExists removeOk sf ef with
  | .ok l => { removed := l, warned := false }
  | .error l => { removed := l, warned := true }

/-- The process-exit behaviour: the action registered at line 309 runs only
when `deleteIntermediateFiles` was enabled, and targets the resolved
stationary-points and epoch files. -/
def exitCleanup (cfg : Resolved) (pathExists removeOk : String → Bool) :
    CleanupResult :=
  if cfg.cleanupRegistered then
    cleanupAction pathExists removeOk cfg.stationaryFile cfg.epochFile
  else { removed := [], warned := false }

/-- Recognizes an orchestrator assignment to the summary key `file-name`. -/
def isFileNameSet : Event → Bool
  | .setKey k _ => k == "file-name"
  | _ => false

/-! ### Concrete fixtures used by the witness theorems -/

/-- A typical argument record: input `data/sample.cwa.gz`, all defaults. -/
def argsBase : Args :=
  { inputFile := "data/sample.cwa.gz"
    sampleRate := 100
    useFilter := true
    processInputFile := true
    outputFolder := ""
    summaryFolder := ""
    epochFolder := ""
    timeSeriesFolder := ""
    nonWearFolder := ""
    stationaryFolder := ""
    rawFolder := ""
    npyFolder := ""
    startTime := none
    endTime := none
    deleteIntermediateFiles := true }

/-- A filesystem oracle on which every path is a file and every folder is
writable. -/
def fsAll : FS :=
  { isFile := fun _ => true, writable := fun _ => true }

/-- A summary oracle defined on exactly the headline keys. -/
def fsumFull : String → Option String := fun k =>
  if k ∈ summaryVals then some "v" else none

/-- A summary oracle with no keys at all. -/
def fsumNone : String → Option String := fun _ => none

/-- The argument record of `argsBase` with processing skipped and an
explicit epoch folder. -/
def argsSkip : Args :=
  { argsBase with processInputFile := false, epochFolder := "evil" }

/-- A filesystem on which everything is writable except the folder `evil`,
and nothing is a file. -/
def fsEvil : FS :=
  { isFile := fun _ => false, writable := fun p => p != "evil" }

/-- A filesystem on which every folder is writable but no path is a file. -/
def fsNoFile : FS :=
  { isFile := fun _ => false, writable := fun _ => true }

/-- A filesystem on which everything is a file but the folder `data` is not
writable. -/
def fsNoData : FS :=
  { isFile := fun _ => true, writable := fun p => p != "data" }

/-- An oracle answering `true` on every path. -/
def allTrue : String → Bool := fun _ => true


/-! ### Helper lemmas -/

lemma firstUnwritable_none_of_all (w : String → Bool) (l : List String)
    (h : ∀ p ∈ l, w p = true) : firstUnwritable w l = none := by
  induction l with
  | nil => rfl
  | cons q qs ih =>
    have hq : w q = true := h q (by simp)
    simp only [firstUnwritable, hq, if_true]
    exact ih (fun p hp => h p (by simp [hp]))

lemma all_of_firstUnwritable_none (w : String → Bool) (l : List String)
    (h : firstUnwritable w l = none) : ∀ p ∈ l, w p = true := by
  induction l with
  | nil => simp
  | cons q qs ih =>
    cases hq : w q with
    | false => simp [firstUnwritable, hq] at h
    | true =>
      simp only [firstUnwritable, hq, if_true] at h
      intro p hp
      rcases List.mem_cons.mp hp with rfl | hp2
      · exact hq
      · exact ih h p hp2

lemma firstUnwritable_some (w : String → Bool) (l : List String) (p : String)
    (h : firstUnwritable w l = some p) : w p = false ∧ p ∈ l := by
  induction l with
  | nil => simp [firstUnwritable] at h
  | cons q qs ih =>
    cases hq : w q with
    | true =>
      simp only [firstUnwritable, hq, if_true] at h
      rcases ih h with ⟨h1, h2⟩
      exact ⟨h1, by simp [h2]⟩
    | false =>
      simp only [firstUnwritable, hq, Bool.false_eq_true, if_false,
        Option.some.injEq] at h
      subst h
      exact ⟨hq, by simp⟩

lemma firstUnwritable_isSome_of_exists (w : String → Bool) (l : List String)
    (p : String) (hp : p ∈ l) (hw : w p = false) :
    ∃ q, firstUnwritable w l = some q := by
  cases h : firstUnwritable w l with
  | some q => exact ⟨q, rfl⟩
  | none =>
    have := all_of_firstUnwritable_none w l h p hp
    rw [this] at hw
    cases hw

lemma firstUnwritable_congr (w1 w2 : String → Bool) (l : List String)
    (h : ∀ p ∈ l, w1 p = w2 p) :
    firstUnwritable w1 l = firstUnwritable w2 l := by
  induction l with
  | nil => rfl
  | cons q qs ih =>
    have hq : w1 q = w2 q := h q (by simp)
    simp only [firstUnwritable, hq]
    rw [ih (fun p hp => h p (by simp [hp]))]

/-- Eliminating a successful resolution: all five gates passed and the
result is exactly `mkResolved args`. -/
lemma resolve_ok_elim (fs : FS) (args : Args) (cfg : Resolved)
    (h : resolve fs args = .ok cfg) :
    25 ≤ args.sampleRate
      ∧ (args.processInputFile = true → fs.isFile args.inputFile = true)
      ∧ (∀ p ∈ checkedFolderList args, fs.writable p = true)
      ∧ (args.processInputFile = true → fs.writable (resolvedEpochFolder args) = true)
      ∧ timeOrderViolation args.startTime args.endTime = none
      ∧ cfg = mkResolved args := by
  unfold resolve at h
  by_cases hs : args.sampleRate < 25
  · simp [hs] at h
  rw [if_neg hs] at h
  have hs' : 25 ≤ args.sampleRate := by omega
  cases hcond : args.processInputFile && !(fs.isFile args.inputFile) with
  | true => rw [hcond] at h; simp at h
  | false =>
    rw [hcond] at h
    simp only [Bool.false_eq_true, if_false] at h
    have hin : args.processInputFile = true → fs.isFile args.inputFile = true := by
      intro hp
      rcases Bool.eq_false_or_eq_true (fs.isFile args.inputFile) with hf | hf
      · exact hf
      · rw [hp, hf] at hcond; simp at hcond
    cases hfu : firstUnwritable fs.writable (checkedFolderList args) with
    | some p => rw [hfu] at h; simp at h
    | none =>
      rw [hfu] at h
      have hall : ∀ p ∈ checkedFolderList args, fs.writable p = true :=
        all_of_firstUnwritable_none fs.writable _ hfu
      cases hcond2 : args.processInputFile && !(fs.writable (resolvedEpochFolder args)) with
      | true => rw [hcond2] at h; simp at h
      | false =>
        rw [hcond2] at h
        simp only [Bool.false_eq_true, if_false] at h
        have hep : args.processInputFile = true → fs.writable (resolvedEpochFolder args) = true := by
          intro hp
          rcases Bool.eq_false_or_eq_true (fs.writable (resolvedEpochFolder args)) with hf | hf
          · exact hf
          · rw [hp, hf] at hcond2; simp at hcond2
        cases hto : timeOrderViolation args.startTime args.endTime with
        | some se => rw [hto] at h; simp at h
        | none =>
          rw [hto] at h
          simp only [Except.ok.injEq] at h
          exact ⟨hs', hin, hall, hep, rfl, h.symm⟩

/-- Introducing a successful resolution from the five gate conditions. -/
lemma resolve_ok_intro (fs : FS) (args : Args)
    (hs : 25 ≤ args.sampleRate)
    (hin : args.processInputFile = true → fs.isFile args.inputFile = true)
    (hall : ∀ p ∈ checkedFolderList args, fs.writable p = true)
    (hep : args.processInputFile = true → fs.writable (resolvedEpochFolder args) = true)
    (hto : timeOrderViolation args.startTime args.endTime = none) :
    resolve fs args = .ok (mkResolved args) := by
  have hcond : (args.processInputFile && !(fs.isFile args.inputFile)) = false := by
    rcases Bool.eq_false_or_eq_true args.processInputFile with hp | hp
    · simp [hp, hin hp]
    · simp [hp]
  have hcond2 : (args.processInputFile && !(fs.writable (resolvedEpochFolder args))) = false := by
    rcases Bool.eq_false_or_eq_true args.processInputFile with hp | hp
    · simp [hp, hep hp]
    · simp [hp]
  unfold resolve
  rw [if_neg (by omega), hcond]
  simp only [Bool.false_eq_true, if_false]
  rw [firstUnwritable_none_of_all fs.writable _ hall, hcond2]
  simp only [Bool.false_eq_true, if_false]
  rw [hto]

lemma resolve_error_sampleRate (fs : FS) (args : Args)
    (hs : args.sampleRate < 25) :
    resolve fs args = .error .sampleRateTooLow := by
  unfold resolve
  rw [if_pos hs]

lemma resolve_error_inputMissing (fs : FS) (args : Args)
    (hs : 25 ≤ args.sampleRate) (hp : args.processInputFile = true)
    (hf : fs.isFile args.inputFile = false) :
    resolve fs args = .error (.inputFileMissing args.inputFile) := by
  unfold resolve
  rw [if_neg (by omega), if_pos (by simp [hp, hf])]

lemma resolve_error_folder (fs : FS) (args : Args) (p : String)
    (hs : 25 ≤ args.sampleRate)
    (hin : args.processInputFile = true → fs.isFile args.inputFile = true)
    (hfu : firstUnwritable fs.writable (checkedFolderList args) = some p) :
    resolve fs args = .error (.folderNotWritable p) := by
  have hcond : (args.processInputFile && !(fs.isFile args.inputFile)) = false := by
    rcases Bool.eq_false_or_eq_true args.processInputFile with hp | hp
    · simp [hp, hin hp]
    · simp [hp]
  unfold resolve
  rw [if_neg (by omega), hcond]
  simp only [Bool.false_eq_true, if_false]
  rw [hfu]

lemma resolve_error_epochFolder (fs : FS) (args : Args)
    (hs : 25 ≤ args.sampleRate)
    (hin : args.processInputFile = true → fs.isFile args.inputFile = true)
    (hfu : firstUnwritable fs.writable (checkedFolderList args) = none)
    (hp : args.processInputFile = true)
    (hw : fs.writable (resolvedEpochFolder args) = false) :
    resolve fs args = .error (.folderNotWritable (resolvedEpochFolder args)) := by
  have hcond : (args.processInputFile && !(fs.isFile args.inputFile)) = false := by
    simp [hp, hin hp]
  unfold resolve
  rw [if_neg (by omega), hcond]
  simp only [Bool.false_eq_true, if_false]
  rw [hfu, if_pos (by simp [hp, hw])]

lemma resolve_error_timeOrder (fs : FS) (args : Args) (s e : Int)
    (hs : 25 ≤ args.sampleRate)
    (hin : args.processInputFile = true → fs.isFile args.inputFile = true)
    (hall : ∀ p ∈ checkedFolderList args, fs.writable p = true)
    (hep : args.processInputFile = true → fs.writable (resolvedEpochFolder args) = true)
    (hto : timeOrderViolation args.startTime args.endTime = some (s, e)) :
    resolve fs args = .error (.invalidTimeOrder s e) := by
  have hcond : (args.processInputFile && !(fs.isFile args.inputFile)) = false := by
    rcases Bool.eq_false_or_eq_true args.processInputFile with hp | hp
    · simp [hp, hin hp]
    · simp [hp]
  have hcond2 : (args.processInputFile && !(fs.writable (resolvedEpochFolder args))) = false := by
    rcases Bool.eq_false_or_eq_true args.processInputFile with hp | hp
    · simp [hp, hep hp]
    · simp [hp]
  unfold resolve
  rw [if_neg (by omega), hcond]
  simp only [Bool.false_eq_true, if_false]
  rw [firstUnwritable_none_of_all fs.writable _ hall, hcond2]
  simp only [Bool.false_eq_true, if_false]
  rw [hto]

lemma buildHeadline_error_mem (s : String → Option String) (ks : List String)
    (k : String) (h : buildHeadline s ks = .error k) : k ∈ ks ∧ s k = none := by
  induction ks with
  | nil => simp [buildHeadline] at h
  | cons q qs ih =>
    unfold buildHeadline at h
    cases hq : s q with
    | none =>
      rw [hq] at h
      simp only [Except.error.injEq] at h
      subst h
      exact ⟨by simp, hq⟩
    | some v =>
      rw [hq] at h
      cases hb : buildHeadline s qs with
      | error k2 =>
        rw [hb] at h
        simp only [Except.map, Except.error.injEq] at h
        subst h
        rcases ih hb with ⟨h1, h2⟩
        exact ⟨by simp [h1], h2⟩
      | ok res =>
        rw [hb] at h
        simp [Except.map] at h

lemma buildHeadline_error_of_missing (s : String → Option String)
    (ks : List String) (h : ∃ k ∈ ks, s k = none) :
    ∃ k, buildHeadline s ks = .error k := by
  induction ks with
  | nil => simp at h
  | cons q qs ih =>
    unfold buildHeadline
    cases hq : s q with
    | none => exact ⟨q, rfl⟩
    | some v =>
      obtain ⟨k, hk, hkn⟩ := h
      rcases List.mem_cons.mp hk with rfl | hk2
      · rw [hq] at hkn
        cases hkn
      · obtain ⟨k2, hb⟩ := ih ⟨k, hk2, hkn⟩
        rw [hb]
        exact ⟨k2, rfl⟩

lemma buildHeadline_ok_of_all (s : String → Option String) (ks : List String)
    (h : ∀ k ∈ ks, (s k).isSome = true) :
    ∃ res, buildHeadline s ks = .ok res := by
  induction ks with
  | nil => exact ⟨[], rfl⟩
  | cons q qs ih =>
    unfold buildHeadline
    cases hq : s q with
    | none =>
      have := h q (by simp)
      rw [hq] at this
      simp at this
    | some v =>
      obtain ⟨res, hb⟩ := ih (fun k hk => h k (by simp [hk]))
      rw [hb]
      exact ⟨(q, v) :: res, rfl⟩

lemma cleanupAction_removed_mem (pe ro : String → Bool) (sf ef f : String)
    (hmem : f ∈ (cleanupAction pe ro sf ef).removed) : pe f = true := by
  cases hsf : pe sf <;> cases hrs : ro sf <;> cases hef : pe ef <;> cases hre : ro ef <;>
    simp [cleanupAction, cleanupTryBody, removeIfExists, hsf, hrs, hef, hre] at hmem <;>
    (try rcases hmem with rfl | rfl) <;> assumption

lemma afterLastSlash_of_not_mem (m : List Char) (hm : '/' ∉ m) :
    afterLastSlash m = m := by
  induction m with
  | nil => rfl
  | cons c cs ih =>
    have hc : ¬(c = '/') := fun h => hm (by simp [h])
    have hcs : '/' ∉ cs := fun h => hm (by simp [h])
    simp [afterLastSlash, hcs, hc]

lemma uptoLastSlash_of_not_mem (m : List Char) (hm : '/' ∉ m) :
    uptoLastSlash m = [] := by
  induction m with
  | nil => rfl
  | cons c cs ih =>
    have hc : ¬(c = '/') := fun h => hm (by simp [h])
    have hcs : '/' ∉ cs := fun h => hm (by simp [h])
    simp [uptoLastSlash, hcs, hc]

lemma afterLastSlash_append (l m : List Char) (hm : '/' ∉ m) :
    afterLastSlash (l ++ m) = afterLastSlash l ++ m := by
  induction l with
  | nil => simp [afterLastSlash, afterLastSlash_of_not_mem m hm]
  | cons c cs ih =>
    rw [List.cons_append]
    simp only [afterLastSlash]
    by_cases h : '/' ∈ cs
    · have h2 : '/' ∈ cs ++ m := List.mem_append_of_mem_left m h
      simp [h, h2, ih]
    · have h2 : '/' ∉ cs ++ m := fun hx => (List.mem_append.mp hx).elim h hm
      by_cases hc : c = '/' <;> simp [h, h2, hc]

lemma uptoLastSlash_append (l m : List Char) (hm : '/' ∉ m) :
    uptoLastSlash (l ++ m) = uptoLastSlash l := by
  induction l with
  | nil => simp [uptoLastSlash, uptoLastSlash_of_not_mem m hm]
  | cons c cs ih =>
    rw [List.cons_append]
    simp only [uptoLastSlash]
    by_cases h : '/' ∈ cs
    · have h2 : '/' ∈ cs ++ m := List.mem_append_of_mem_left m h
      simp [h, h2, ih]
    · have h2 : '/' ∉ cs ++ m := fun hx => (List.mem_append.mp hx).elim h hm
      by_cases hc : c = '/' <;> simp [h, h2, hc]

lemma dirNameOf_append (l m : List Char) (hm : '/' ∉ m) :
    dirNameOf (l ++ m) = dirNameOf l := by
  unfold dirNameOf
  rw [uptoLastSlash_append l m hm]

lemma mem_of_mem_afterLastSlash (l : List Char) (c : Char)
    (h : c ∈ afterLastSlash l) : c ∈ l := by
  induction l with
  | nil => exact h
  | cons a as ih =>
    simp only [afterLastSlash] at h
    by_cases hc : '/' ∈ as
    · rw [if_pos hc] at h
      exact List.mem_cons_of_mem a (ih h)
    · rw [if_neg hc] at h
      by_cases ha : a = '/'
      · rw [if_pos ha] at h
        exact List.mem_cons_of_mem a h
      · rwa [if_neg ha] at h

lemma takeWhile_append_of_all (p : Char → Bool) (x y : List Char)
    (hx : ∀ c ∈ x, p c = true) : (x ++ y).takeWhile p = x ++ y.takeWhile p := by
  induction x with
  | nil => simp
  | cons a as ih =>
    have ha : p a = true := hx a (by simp)
    rw [List.cons_append, List.takeWhile_cons, if_pos ha,
      ih (fun c hc => hx c (by simp [hc])), List.cons_append]

lemma takeWhile_eq_self_of_all (p : Char → Bool) (x : List Char)
    (hx : ∀ c ∈ x, p c = true) : x.takeWhile p = x := by
  induction x with
  | nil => rfl
  | cons a as ih =>
    rw [List.takeWhile_cons, if_pos (hx a (by simp)),
      ih (fun c hc => hx c (by simp [hc]))]

/-- Appending `.cwa` to a dot-free path leaves the stem (the file-name
component truncated at the first dot) unchanged. -/
lemma stem_append_cwa (p : String) (hd : hasDot p = false) :
    beforeFirstDot (fileNameOf (p ++ ".cwa")) = beforeFirstDot (fileNameOf p) := by
  have hdot : '.' ∉ p.data := by simpa [hasDot] using hd
  have hslash : '/' ∉ ".cwa".data := by decide
  have hx : ∀ c ∈ afterLastSlash p.data, (fun c => decide (c ≠ '.')) c = true := by
    intro c hc
    have : c ∈ p.data := mem_of_mem_afterLastSlash p.data c hc
    simp only [decide_eq_true_eq]
    intro heq
    rw [heq] at this
    exact hdot this
  unfold fileNameOf beforeFirstDot
  rw [String.data_append, afterLastSlash_append p.data ".cwa".data hslash]
  show String.mk ((afterLastSlash p.data ++ ".cwa".data).takeWhile _)
      = String.mk ((afterLastSlash p.data).takeWhile _)
  rw [takeWhile_append_of_all _ _ _ hx, takeWhile_eq_self_of_all _ _ hx]
  show String.mk (afterLastSlash p.data ++ ".cwa".data.takeWhile _)
      = String.mk (afterLastSlash p.data)
  rw [show ".cwa".data.takeWhile (fun c => decide (c ≠ '.')) = [] from by decide,
    List.append_nil]

/-- The stem of the resolved configuration depends only on the original
input path: the `.cwa` fixup never changes it. -/
lemma resolvedStem_eq (args : Args) :
    resolvedStem args = beforeFirstDot (fileNameOf args.inputFile) := by
  unfold resolvedStem effectiveInput
  cases hp : args.processInputFile with
  | true => rfl
  | false =>
    simp only [Bool.false_eq_true, if_false]
    cases hd : hasDot args.inputFile with
    | true => rfl
    | false =>
      simp only [Bool.false_eq_true, if_false]
      exact stem_append_cwa args.inputFile hd

/-- The folder of the effective input equals the folder of the original
input path: appending `.cwa` never changes the directory component. -/
lemma effectiveInput_folder (args : Args) :
    (splitPath (effectiveInput args)).1 = (splitPath args.inputFile).1 := by
  unfold effectiveInput
  cases hp : args.processInputFile with
  | true => rfl
  | false =>
    simp only [Bool.false_eq_true, if_false]
    cases hd : hasDot args.inputFile with
    | true => rfl
    | false =>
      simp only [Bool.false_eq_true, if_false]
      show String.mk (dirNameOf (args.inputFile ++ ".cwa").data)
          = String.mk (dirNameOf args.inputFile.data)
      rw [String.data_append,
        dirNameOf_append args.inputFile.data ".cwa".data (by decide)]

/-! ### Claim theorems -/

/-- C2: a user sample rate below 25 makes resolution fail (with the
sample-rate error) before any stage event is emitted; a rate in `[25, 40]`
forces the resolved filter flag to `false` whatever the user chose; a rate
above 40 passes the user flag through unchanged. -/
theorem sampleRate_gate_and_filter_downgrade (fs : FS) (args : Args)
    (fsum : String → Option String) :
    (args.sampleRate < 25 →
        resolve fs args = .error .sampleRateTooLow
          ∧ (runProgram fs args fsum).1 = [])
    ∧ (25 ≤ args.sampleRate → args.sampleRate ≤ 40 →
        ∀ cfg, resolve fs args = .ok cfg → cfg.useFilter = false)
    ∧ (40 < args.sampleRate →
        ∀ cfg, resolve fs args = .ok cfg → cfg.useFilter = args.useFilter) := by
  refine ⟨fun h => ⟨resolve_error_sampleRate fs args h, ?_⟩,
    fun h1 h2 cfg hok => ?_, fun h cfg hok => ?_⟩
  · unfold runProgram
    rw [resolve_error_sampleRate fs args h]
  · rw [(resolve_ok_elim fs args cfg hok).2.2.2.2.2]
    show (if args.sampleRate ≤ 40 then false else args.useFilter) = false
    rw [if_pos h2]
  · rw [(resolve_ok_elim fs args cfg hok).2.2.2.2.2]
    show (if args.sampleRate ≤ 40 then false else args.useFilter) = args.useFilter
    rw [if_neg (by omega)]

/-- Witness for C2 at sample rates 20, 30 and 100. -/
theorem sampleRate_gate_and_filter_downgrade_witness :
    resolve fsAll { argsBase with sampleRate := 20 } = .error .sampleRateTooLow
    ∧ (mkResolved { argsBase with sampleRate := 30 }).useFilter = false
    ∧ (mkResolved { argsBase with sampleRate := 100 }).useFilter = true := by
  refine ⟨?_, ?_, ?_⟩
  · exact ((sampleRate_gate_and_filter_downgrade fsAll
      { argsBase with sampleRate := 20 } fsumFull).1 (by decide)).1
  · exact (sampleRate_gate_and_filter_downgrade fsAll
      { argsBase with sampleRate := 30 } fsumFull).2.1 (by decide) (by decide) _
      (resolve_ok_intro fsAll _ (by decide) (fun _ => rfl) (fun p _ => rfl)
        (fun _ => rfl) rfl)
  · rw [(sampleRate_gate_and_filter_downgrade fsAll
      { argsBase with sampleRate := 100 } fsumFull).2.2 (by decide) _
      (resolve_ok_intro fsAll _ (by decide) (fun _ => rfl) (fun p _ => rfl)
        (fun _ => rfl) rfl)]
    rfl

/-- C5: with every other gate passing, a present start/end pair with
start > end makes resolution fail with the time-order error carrying both
values; a pair with start ≤ end, or an absent timestamp on either side,
passes the time-order validation and resolution succeeds. -/
theorem timeOrder_validation (fs : FS) (args : Args)
    (hs : 25 ≤ args.sampleRate)
    (hin : args.processInputFile = true → fs.isFile args.inputFile = true)
    (hall : ∀ p ∈ checkedFolderList args, fs.writable p = true)
    (hep : args.processInputFile = true → fs.writable (resolvedEpochFolder args) = true) :
    (∀ s e, args.startTime = some s → args.endTime = some e →
        (e < s → resolve fs args = .error (.invalidTimeOrder s e))
        ∧ (s ≤ e → resolve fs args = .ok (mkResolved args)))
    ∧ ((args.startTime = none ∨ args.endTime = none) →
        resolve fs args = .ok (mkResolved args)) := by
  constructor
  · intro s e hst hen
    constructor
    · intro hlt
      apply resolve_error_timeOrder fs args s e hs hin hall hep
      rw [hst, hen]
      simp [timeOrderViolation, hlt]
    · intro hle
      apply resolve_ok_intro fs args hs hin hall hep
      rw [hst, hen]
      simp only [timeOrderViolation, if_neg (by omega : ¬e < s)]
  · intro h
    apply resolve_ok_intro fs args hs hin hall hep
    rcases h with h | h
    · rw [h]
      rfl
    · rw [h]
      cases args.startTime <;> rfl

/-- Witness for C5: an inverted pair fails with both values, an equal pair
and a half-absent pair succeed. -/
theorem timeOrder_validation_witness :
    resolve fsAll { argsBase with startTime := some 10, endTime := some 5 }
        = .error (.invalidTimeOrder 10 5)
    ∧ resolve fsAll { argsBase with startTime := some 5, endTime := some 5 }
        = .ok (mkResolved { argsBase with startTime := some 5, endTime := some 5 })
    ∧ resolve fsAll { argsBase with endTime := some 5 }
        = .ok (mkResolved { argsBase with endTime := some 5 }) := by
  refine ⟨?_, ?_, ?_⟩
  · exact ((timeOrder_validation fsAll _ (by decide) (fun _ => rfl)
      (fun p _ => rfl) (fun _ => rfl)).1 10 5 rfl rfl).1 (by decide)
  · exact ((timeOrder_validation fsAll _ (by decide) (fun _ => rfl)
      (fun p _ => rfl) (fun _ => rfl)).1 5 5 rfl rfl).2 (by decide)
  · exact (timeOrder_validation fsAll _ (by decide) (fun _ => rfl)
      (fun p _ => rfl) (fun _ => rfl)).2 (Or.inl rfl)

/-- C6: when processing is requested the input path must be an existing
file, otherwise resolution fails with the error naming that path; when
processing is skipped the filesystem file-existence oracle is never
consulted, and a path without any dot gets `.cwa` appended before the base
name (stem) is derived from it. -/
theorem input_file_handling (fs : FS) (args : Args)
    (hs : 25 ≤ args.sampleRate) :
    (args.processInputFile = true → fs.isFile args.inputFile = false →
        resolve fs args = .error (.inputFileMissing args.inputFile))
    ∧ (args.processInputFile = false →
        (∀ fs2 : FS, fs2.writable = fs.writable → resolve fs2 args = resolve fs args)
        ∧ (hasDot args.inputFile = false →
            effectiveInput args = args.inputFile ++ ".cwa")
        ∧ (hasDot args.inputFile = true → effectiveInput args = args.inputFile)
        ∧ (∀ cfg, resolve fs args = .ok cfg →
            cfg.inputFile = effectiveInput args
            ∧ cfg.stem = beforeFirstDot (fileNameOf (effectiveInput args)))) := by
  refine ⟨fun hp hf => resolve_error_inputMissing fs args hs hp hf, fun hp => ⟨?_, ?_, ?_, ?_⟩⟩
  · intro fs2 hw
    unfold resolve
    rw [hw, hp]
    simp only [Bool.false_and]
  · intro hd
    unfold effectiveInput
    rw [hp, hd]
    simp
  · intro hd
    unfold effectiveInput
    rw [hp, hd]
    simp
  · intro cfg hok
    rw [(resolve_ok_elim fs args cfg hok).2.2.2.2.2]
    exact ⟨rfl, rfl⟩

/-- Witness for C6: a missing input file fails when processing is
requested; with processing skipped, an extensionless input gets `.cwa`
appended and the existence oracle is irrelevant. -/
theorem input_file_handling_witness :
    resolve fsNoFile argsBase = .error (.inputFileMissing "data/sample.cwa.gz")
    ∧ effectiveInput { argsBase with processInputFile := false, inputFile := "data/night" }
        = "data/night" ++ ".cwa"
    ∧ resolve fsNoFile { argsBase with processInputFile := false }
        = resolve fsAll { argsBase with processInputFile := false } := by
  refine ⟨?_, ?_, ?_⟩
  · exact (input_file_handling fsNoFile argsBase (by decide)).1 rfl rfl
  · exact ((input_file_handling fsAll
      { argsBase with processInputFile := false, inputFile := "data/night" }
      (by decide)).2 rfl).2.1 (by decide)
  · exact ((input_file_handling fsAll
      { argsBase with processInputFile := false } (by decide)).2 rfl).1 fsNoFile rfl

/-- C1: on a successful resolution every checked output folder (the seven
of the loop, plus the epoch folder when processing is requested) is
writable; conversely, once the earlier gates pass, any unwritable folder in
that set makes resolution fail with a configuration error naming an
unwritable folder of the set, and no stage event is ever emitted. -/
theorem output_folder_gate (fs : FS) (args : Args)
    (fsum : String → Option String) :
    (∀ cfg, resolve fs args = .ok cfg →
        (∀ p ∈ checkedFolderList args, fs.writable p = true)
        ∧ (args.processInputFile = true →
            fs.writable (resolvedEpochFolder args) = true))
    ∧ (25 ≤ args.sampleRate →
       (args.processInputFile = true → fs.isFile args.inputFile = true) →
       ∀ p ∈ checkedFolderList args, fs.writable p = false →
        ∃ q, fs.writable q = false ∧ q ∈ checkedFolderList args
          ∧ resolve fs args = .error (.folderNotWritable q)
          ∧ (runProgram fs args fsum).1 = [])
    ∧ (25 ≤ args.sampleRate →
       (args.processInputFile = true → fs.isFile args.inputFile = true) →
       args.processInputFile = true →
       (∀ p ∈ checkedFolderList args, fs.writable p = true) →
       fs.writable (resolvedEpochFolder args) = false →
        resolve fs args = .error (.folderNotWritable (resolvedEpochFolder args))
          ∧ (runProgram fs args fsum).1 = []) := by
  refine ⟨fun cfg hok => ⟨(resolve_ok_elim fs args cfg hok).2.2.1,
      (resolve_ok_elim fs args cfg hok).2.2.2.1⟩,
    fun hs hin p hpmem hpw => ?_, fun hs hin hp hall hw => ?_⟩
  · obtain ⟨q, hq⟩ :=
      firstUnwritable_isSome_of_exists fs.writable (checkedFolderList args) p hpmem hpw
    obtain ⟨hqw, hqmem⟩ := firstUnwritable_some fs.writable _ q hq
    have herr := resolve_error_folder fs args q hs hin hq
    refine ⟨q, hqw, hqmem, herr, ?_⟩
    unfold runProgram
    rw [herr]
  · have hfu := firstUnwritable_none_of_all fs.writable _ hall
    have herr := resolve_error_epochFolder fs args hs hin hfu hp hw
    refine ⟨herr, ?_⟩
    unfold runProgram
    rw [herr]

/-- Witness for C1: with the default folders resolving to `data` and `data`
unwritable, resolution fails naming `data` and no stage event is emitted. -/
theorem output_folder_gate_witness :
    resolve fsNoData argsBase = .error (.folderNotWritable "data")
    ∧ (runProgram fsNoData argsBase fsumFull).1 = [] := by
  obtain ⟨q, hqw, hqmem, herr, hrun⟩ :=
    (output_folder_gate fsNoData argsBase fsumFull).2.1 (by decide)
      (fun _ => rfl) "data" (by decide) (by decide)
  have hq : q = "data" := by
    have hlist : checkedFolderList argsBase
        = ["data", "data", "data", "data", "data", "data", "data"] := by decide
    rw [hlist] at hqmem
    simpa using hqmem
  rw [hq] at herr
  exact ⟨herr, hrun⟩

/-- C10: with processing skipped and a user-specified epoch folder distinct
from every checked folder, resolution reads neither the existence nor the
writability of that folder (two filesystems differing only there resolve
identically), and a successful resolution proceeds to the stage sequence
even when the epoch folder is unwritable. -/
theorem epochFolder_unchecked_when_skipping (fs fs2 : FS) (args : Args)
    (fsum : String → Option String)
    (hp : args.processInputFile = false)
    (hne : args.epochFolder ≠ "")
    (hdist : args.epochFolder ∉ checkedFolderList args)
    (hw : ∀ p, p ≠ args.epochFolder → fs2.writable p = fs.writable p) :
    resolve fs2 args = resolve fs args
    ∧ resolvedEpochFolder args = args.epochFolder
    ∧ (∀ cfg, resolve fs args = .ok cfg →
        fs.writable (resolvedEpochFolder args) = false →
        Event.epochSummariseStage ∈ (runEvents cfg fsum).1) := by
  refine ⟨?_, ?_, fun cfg hok hwf => ?_⟩
  · have hlist : ∀ p ∈ checkedFolderList args, fs2.writable p = fs.writable p :=
      fun p hpl => hw p (fun heq => hdist (heq ▸ hpl))
    unfold resolve
    rw [hp, firstUnwritable_congr fs2.writable fs.writable _ hlist]
    simp only [Bool.false_and]
  · unfold resolvedEpochFolder resolvedFolder
    rw [if_neg hne]
  · unfold runEvents
    cases cfg.processInputFile <;>
      cases buildHeadline fsum summaryVals <;> simp

/-- Witness for C10: the epoch folder `evil` is unwritable on `fsEvil`, is
distinct from the checked folders, and resolution succeeds anyway, with the
epoch-summarise stage reached. -/
theorem epochFolder_unchecked_when_skipping_witness :
    resolve fsNoFile argsSkip = resolve fsEvil argsSkip
    ∧ resolvedEpochFolder argsSkip = "evil"
    ∧ Event.epochSummariseStage ∈ (runEvents (mkResolved argsSkip) fsumFull).1 := by
  obtain ⟨h1, h2, h3⟩ := epochFolder_unchecked_when_skipping fsEvil fsNoFile
    argsSkip fsumFull rfl (by decide) (by decide)
    (fun p hpne => by
      show (true : Bool) = (p != "evil")
      simp [bne_iff_ne]
      exact hpne)
  refine ⟨h1, h2, h3 (mkResolved argsSkip) ?_ ?_⟩
  · exact resolve_ok_intro fsEvil argsSkip (by decide)
      (fun h => absurd h (by decide)) (by decide)
      (fun h => absurd h (by decide)) rfl
  · rw [h2]
    rfl

/-- C7: the orchestrator assigns the summary key `file-name` exactly once,
before the epoch-summarise stage: to the (resolved) input path when
processing is requested, in which case the decode stage runs first, and to
the derived epoch file path when processing is skipped, in which case the
decode stage never runs. -/
theorem fileName_set_once_before_summarise (cfg : Resolved)
    (fsum : String → Option String) :
    (cfg.processInputFile = true →
        ∃ tail, (runEvents cfg fsum).1
            = Event.setKey "file-name" cfg.inputFile :: Event.decodeStage
                :: Event.epochSummariseStage :: Event.timeSeriesWriteStage :: tail
          ∧ tail.filter isFileNameSet = [])
    ∧ (cfg.processInputFile = false →
        ∃ tail, (runEvents cfg fsum).1
            = Event.setKey "file-name" cfg.epochFile
                :: Event.epochSummariseStage :: Event.timeSeriesWriteStage :: tail
          ∧ tail.filter isFileNameSet = [])
    ∧ (Event.decodeStage ∈ (runEvents cfg fsum).1 ↔ cfg.processInputFile = true) := by
  refine ⟨fun hp => ?_, fun hp => ?_, ?_⟩
  · unfold runEvents
    rw [hp]
    cases buildHeadline fsum summaryVals with
    | error k => exact ⟨[], rfl, rfl⟩
    | ok res =>
      exact ⟨[Event.printHeadline, Event.writeSummaryFile cfg.summaryFile], rfl, rfl⟩
  · unfold runEvents
    rw [hp]
    cases buildHeadline fsum summaryVals with
    | error k => exact ⟨[], rfl, rfl⟩
    | ok res =>
      exact ⟨[Event.printHeadline, Event.writeSummaryFile cfg.summaryFile], rfl, rfl⟩
  · unfold runEvents
    cases cfg.processInputFile <;>
      cases buildHeadline fsum summaryVals <;> simp

/-- Witness for C7 on a processed run and a skipped run. -/
theorem fileName_set_once_before_summarise_witness :
    ((runEvents (mkResolved argsBase) fsumFull).1.filter isFileNameSet
      = [Event.setKey "file-name" (mkResolved argsBase).inputFile])
    ∧ ((runEvents (mkResolved argsSkip) fsumFull).1.filter isFileNameSet
      = [Event.setKey "file-name" (mkResolved argsSkip).epochFile])
    ∧ Event.decodeStage ∉ (runEvents (mkResolved argsSkip) fsumFull).1 := by
  obtain ⟨h1, -, -⟩ :=
    fileName_set_once_before_summarise (mkResolved argsBase) fsumFull
  obtain ⟨-, h2, h3⟩ :=
    fileName_set_once_before_summarise (mkResolved argsSkip) fsumFull
  obtain ⟨t1, he1, hf1⟩ := h1 rfl
  obtain ⟨t2, he2, hf2⟩ := h2 rfl
  refine ⟨?_, ?_, ?_⟩
  · rw [he1]
    simp only [List.filter_cons, List.filter_append]
    rw [hf1]
    rfl
  · rw [he2]
    simp only [List.filter_cons]
    rw [hf2]
    rfl
  · intro hmem
    have := h3.mp hmem
    simp [mkResolved, argsSkip, argsBase] at this

/-- C8: finalization reads the fixed ordered seven headline keys from the
summary; if any is absent the run fails with a `KeyError` before printing,
and the summary file is never written; if all are present the run succeeds
and the summary file write event is emitted. -/
theorem headline_failfast (cfg : Resolved) (fsum : String → Option String) :
    summaryVals = ["file-name", "file-startTime", "file-endTime",
      "acc-overall-avg", "wearTime-overall(days)", "nonWearTime-overall(days)",
      "quality-goodWearTime"]
    ∧ ((∃ k ∈ summaryVals, fsum k = none) →
        (∃ k ∈ summaryVals, fsum k = none ∧ (runEvents cfg fsum).2 = .error k)
        ∧ ∀ p, Event.writeSummaryFile p ∉ (runEvents cfg fsum).1)
    ∧ ((∀ k ∈ summaryVals, (fsum k).isSome = true) →
        (runEvents cfg fsum).2 = .ok ()
        ∧ Event.writeSummaryFile cfg.summaryFile ∈ (runEvents cfg fsum).1) := by
  refine ⟨rfl, fun hmiss => ?_, fun hall => ?_⟩
  · obtain ⟨k, hb⟩ := buildHeadline_error_of_missing fsum summaryVals hmiss
    obtain ⟨hmem, hnone⟩ := buildHeadline_error_mem fsum summaryVals k hb
    constructor
    · refine ⟨k, hmem, hnone, ?_⟩
      unfold runEvents
      rw [hb]
    · intro p
      unfold runEvents
      rw [hb]
      cases cfg.processInputFile <;> simp
  · obtain ⟨res, hb⟩ := buildHeadline_ok_of_all fsum summaryVals hall
    constructor
    · unfold runEvents
      rw [hb]
    · unfold runEvents
      rw [hb]
      cases cfg.processInputFile <;> simp

/-- Witness for C8: an empty summary yields a `KeyError` and no summary
write; a fully populated summary yields success and the write event. -/
theorem headline_failfast_witness :
    Event.writeSummaryFile (mkResolved argsBase).summaryFile
        ∉ (runEvents (mkResolved argsBase) fsumNone).1
    ∧ (runEvents (mkResolved argsBase) fsumFull).2 = .ok ()
    ∧ Event.writeSummaryFile (mkResolved argsBase).summaryFile
        ∈ (runEvents (mkResolved argsBase) fsumFull).1 := by
  obtain ⟨-, hmiss, -⟩ := headline_failfast (mkResolved argsBase) fsumNone
  obtain ⟨-, -, hall⟩ := headline_failfast (mkResolved argsBase) fsumFull
  obtain ⟨-, hnw⟩ := hmiss (by decide)
  obtain ⟨hok, hw⟩ := hall (by decide)
  exact ⟨hnw _, hok, hw⟩

/-- C9: the cleanup action is registered exactly when the flag is enabled
and targets the resolved stationary-points and epoch files; a missing file
is skipped without error; an `OSError` inside the try body is caught and
turned into the warning, never escaping the action; when both files exist
and both deletions succeed, both files are removed. -/
theorem cleanup_best_effort (fs : FS) (args : Args) (cfg : Resolved)
    (pathExists removeOk : String → Bool)
    (h : resolve fs args = .ok cfg) :
    cfg.cleanupRegistered = args.deleteIntermediateFiles
    ∧ (args.deleteIntermediateFiles = true →
        exitCleanup cfg pathExists removeOk
          = cleanupAction pathExists removeOk cfg.stationaryFile cfg.epochFile)
    ∧ (args.deleteIntermediateFiles = false →
        exitCleanup cfg pathExists removeOk = { removed := [], warned := false })
    ∧ (∀ f, pathExists f = false →
        f ∉ (cleanupAction pathExists removeOk cfg.stationaryFile cfg.epochFile).removed)
    ∧ (pathExists cfg.stationaryFile = false → pathExists cfg.epochFile = false →
        cleanupAction pathExists removeOk cfg.stationaryFile cfg.epochFile
          = { removed := [], warned := false })
    ∧ (∀ l, cleanupTryBody pathExists removeOk cfg.stationaryFile cfg.epochFile
          = .error l →
        cleanupAction pathExists removeOk cfg.stationaryFile cfg.epochFile
          = { removed := l, warned := true })
    ∧ (pathExists cfg.stationaryFile = true → removeOk cfg.stationaryFile = true →
       pathExists cfg.epochFile = true → removeOk cfg.epochFile = true →
        cleanupAction pathExists removeOk cfg.stationaryFile cfg.epochFile
          = { removed := [cfg.stationaryFile, cfg.epochFile], warned := false }) := by
  have hreg : cfg.cleanupRegistered = args.deleteIntermediateFiles := by
    rw [(resolve_ok_elim fs args cfg h).2.2.2.2.2]
    rfl
  refine ⟨hreg, fun hd => ?_, fun hd => ?_, fun f hf hmem => ?_, fun h1 h2 => ?_,
    fun l hl => ?_, fun h1 h2 h3 h4 => ?_⟩
  · unfold exitCleanup
    rw [hreg, hd]
    simp
  · unfold exitCleanup
    rw [hreg, hd]
    simp
  · have := cleanupAction_removed_mem pathExists removeOk
      cfg.stationaryFile cfg.epochFile f hmem
    rw [hf] at this
    cases this
  · simp [cleanupAction, cleanupTryBody, removeIfExists, h1, h2]
  · unfold cleanupAction
    rw [hl]
  · simp [cleanupAction, cleanupTryBody, removeIfExists, h1, h2, h3, h4]

/-- Witness for C9 on the resolved base configuration, with an all-success
filesystem and a failing `os.remove`. -/
theorem cleanup_best_effort_witness :
    (mkResolved argsBase).cleanupRegistered = true
    ∧ cleanupAction allTrue allTrue (mkResolved argsBase).stationaryFile
        (mkResolved argsBase).epochFile
      = { removed := [(mkResolved argsBase).stationaryFile,
            (mkResolved argsBase).epochFile], warned := false }
    ∧ cleanupAction allTrue (fun _ => false) (mkResolved argsBase).stationaryFile
        (mkResolved argsBase).epochFile
      = { removed := [], warned := true } := by
  have hok : resolve fsAll argsBase = .ok (mkResolved argsBase) :=
    resolve_ok_intro fsAll argsBase (by decide) (fun _ => rfl) (fun p _ => rfl)
      (fun _ => rfl) rfl
  obtain ⟨hreg, -, -, -, -, hcatch, hboth⟩ :=
    cleanup_best_effort fsAll argsBase (mkResolved argsBase) allTrue allTrue hok
  obtain ⟨-, -, -, -, -, hcatch2, -⟩ :=
    cleanup_best_effort fsAll argsBase (mkResolved argsBase) allTrue
      (fun _ => false) hok
  refine ⟨hreg, hboth rfl rfl rfl rfl, hcatch2 [] rfl⟩

/-- C3: the resolved base stem is the file-name component of the supplied
input path truncated at its first dot, and each of the seven derived output
file paths is its resolved folder joined with the stem plus the fixed
per-artifact suffix. -/
theorem stem_and_suffixes (fs : FS) (args : Args) (cfg : Resolved)
    (h : resolve fs args = .ok cfg) :
    cfg.stem = beforeFirstDot (fileNameOf args.inputFile)
    ∧ cfg.summaryFile = joinPath cfg.summaryFolder (cfg.stem ++ "-summary.json")
    ∧ cfg.nonWearFile = joinPath cfg.nonWearFolder (cfg.stem ++ "-nonWearBouts.csv.gz")
    ∧ cfg.epochFile = joinPath cfg.epochFolder (cfg.stem ++ "-epoch.csv.gz")
    ∧ cfg.stationaryFile
        = joinPath cfg.stationaryFolder (cfg.stem ++ "-stationaryPoints.csv.gz")
    ∧ cfg.tsFile = joinPath cfg.timeSeriesFolder (cfg.stem ++ "-timeSeries.csv.gz")
    ∧ cfg.rawFile = joinPath cfg.rawFolder (cfg.stem ++ ".csv.gz")
    ∧ cfg.npyFile = joinPath cfg.npyFolder (cfg.stem ++ ".npy") := by
  rw [(resolve_ok_elim fs args cfg h).2.2.2.2.2]
  exact ⟨resolvedStem_eq args, rfl, rfl, rfl, rfl, rfl, rfl, rfl⟩

/-- Witness for C3 on the multi-dot input `data/sample.cwa.gz`: the stem is
`sample` and the derived paths carry the fixed suffixes. -/
theorem stem_and_suffixes_witness :
    (mkResolved argsBase).stem = "sample"
    ∧ (mkResolved argsBase).summaryFile = "data/sample-summary.json"
    ∧ (mkResolved argsBase).nonWearFile = "data/sample-nonWearBouts.csv.gz"
    ∧ (mkResolved argsBase).epochFile = "data/sample-epoch.csv.gz"
    ∧ (mkResolved argsBase).stationaryFile = "data/sample-stationaryPoints.csv.gz"
    ∧ (mkResolved argsBase).tsFile = "data/sample-timeSeries.csv.gz"
    ∧ (mkResolved argsBase).rawFile = "data/sample.csv.gz"
    ∧ (mkResolved argsBase).npyFile = "data/sample.npy" := by
  obtain ⟨h1, h2, h3, h4, h5, h6, h7, h8⟩ :=
    stem_and_suffixes fsAll argsBase (mkResolved argsBase)
      (resolve_ok_intro fsAll argsBase (by decide) (fun _ => rfl) (fun p _ => rfl)
        (fun _ => rfl) rfl)
  have hs : (mkResolved argsBase).stem = "sample" := by
    rw [h1]
    decide
  refine ⟨hs, ?_, ?_, ?_, ?_, ?_, ?_, ?_⟩
  · rw [h2, hs]; decide
  · rw [h3, hs]; decide
  · rw [h4, hs]; decide
  · rw [h5, hs]; decide
  · rw [h6, hs]; decide
  · rw [h7, hs]; decide
  · rw [h8, hs]; decide

/-- C4: each per-artifact folder the user left empty resolves to the general
output folder; a folder the user specified is kept verbatim; and the
general output folder itself defaults to the folder containing the input
file when unspecified, else keeps the user value. -/
theorem folder_defaulting (fs : FS) (args : Args) (cfg : Resolved)
    (h : resolve fs args = .ok cfg) :
    (args.outputFolder = "" → cfg.outputFolder = (splitPath args.inputFile).1)
    ∧ (args.outputFolder ≠ "" → cfg.outputFolder = args.outputFolder)
    ∧ (args.summaryFolder = "" → cfg.summaryFolder = cfg.outputFolder)
    ∧ (args.summaryFolder ≠ "" → cfg.summaryFolder = args.summaryFolder)
    ∧ (args.nonWearFolder = "" → cfg.nonWearFolder = cfg.outputFolder)
    ∧ (args.nonWearFolder ≠ "" → cfg.nonWearFolder = args.nonWearFolder)
    ∧ (args.epochFolder = "" → cfg.epochFolder = cfg.outputFolder)
    ∧ (args.epochFolder ≠ "" → cfg.epochFolder = args.epochFolder)
    ∧ (args.stationaryFolder = "" → cfg.stationaryFolder = cfg.outputFolder)
    ∧ (args.stationaryFolder ≠ "" → cfg.stationaryFolder = args.stationaryFolder)
    ∧ (args.timeSeriesFolder = "" → cfg.timeSeriesFolder = cfg.outputFolder)
    ∧ (args.timeSeriesFolder ≠ "" → cfg.timeSeriesFolder = args.timeSeriesFolder)
    ∧ (args.rawFolder = "" → cfg.rawFolder = cfg.outputFolder)
    ∧ (args.rawFolder ≠ "" → cfg.rawFolder = args.rawFolder)
    ∧ (args.npyFolder = "" → cfg.npyFolder = cfg.outputFolder)
    ∧ (args.npyFolder ≠ "" → cfg.npyFolder = args.npyFolder) := by
  rw [(resolve_ok_elim fs args cfg h).2.2.2.2.2]
  refine ⟨fun h0 => ?_, fun h0 => ?_, fun h0 => ?_, fun h0 => ?_, fun h0 => ?_,
    fun h0 => ?_, fun h0 => ?_, fun h0 => ?_, fun h0 => ?_, fun h0 => ?_,
    fun h0 => ?_, fun h0 => ?_, fun h0 => ?_, fun h0 => ?_, fun h0 => ?_,
    fun h0 => ?_⟩
  · show resolvedOutputFolder args = (splitPath args.inputFile).1
    unfold resolvedOutputFolder
    rw [if_pos h0]
    exact effectiveInput_folder args
  · show resolvedOutputFolder args = args.outputFolder
    unfold resolvedOutputFolder
    rw [if_neg h0]
  all_goals
    first
    | (show resolvedFolder _ args = resolvedOutputFolder args
       unfold resolvedFolder
       rw [if_pos h0])
    | (show resolvedFolder _ args = _
       unfold resolvedFolder
       rw [if_neg h0])

/-- Witness for C4: with everything defaulted the folders inherit `data`
(the input file folder); a user-specified epoch folder is kept. -/
theorem folder_defaulting_witness :
    (mkResolved argsBase).outputFolder = "data"
    ∧ (mkResolved argsBase).epochFolder = (mkResolved argsBase).outputFolder
    ∧ (mkResolved argsSkip).epochFolder = "evil" := by
  obtain ⟨h1, -, -, -, -, -, h7, -⟩ :=
    folder_defaulting fsAll argsBase (mkResolved argsBase)
      (resolve_ok_intro fsAll argsBase (by decide) (fun _ => rfl) (fun p _ => rfl)
        (fun _ => rfl) rfl)
  obtain ⟨-, -, -, -, -, -, -, h8, -⟩ :=
    folder_defaulting fsEvil argsSkip (mkResolved argsSkip)
      (resolve_ok_intro fsEvil argsSkip (by decide)
        (fun hx => absurd hx (by decide)) (by decide)
        (fun hx => absurd hx (by decide)) rfl)
  refine ⟨?_, h7 rfl, ?_⟩
  · rw [h1 rfl]
    decide
  · rw [h8 (by decide)]
    decide

end AccProcess
